import Mathlib

/-!
Verification of the DogeCash Blockbook parser (package `dogec`).

The development shallowly embeds the two Go source files of the package:
`dogec.go` (block/transaction parsing, zerocoin script classification and
value extraction) and `dogecrpc.go` (RPC augmentation: chain info,
superblock height, serial lookup).  Byte buffers are `List Nat` (each
element a byte value), Go strings are `String`, Go `int`/`int64` are `Int`,
Go `uint32` is `Nat`, `*big.Int` is `Int`, and a Go `(T, error)` pair is
`Option T` / `Except` / an explicit `T × Option e` as fits the call site.
External collaborators (the wire codec, the RPC transport, the baseline
Bitcoin address resolver, the transaction hash) are taken as parameters of
the embedded functions, so theorems quantify over their behaviour.
-/

/-! ## Constants (`dogec.go`) -/

def OP_ZEROCOINMINT : Nat := 0xc1

def OP_ZEROCOINSPEND : Nat := 0xc2

def ZCMINT_LABEL : String := "Zerocoin Mint"

def ZCSPEND_LABEL : String := "Zerocoin Spend"

def CBASE_LABEL : String := "CoinBase TX"

def CSTAKE_LABEL : String := "CoinStake TX"

def CBASE_ADDR_INT : Nat := 0xf7

def CSTAKE_ADDR_INT : Nat := 0xf8

def nBlocksPerPeriod : Int := 43200

def MainnetMagic : Nat := 0xe9fdc490

def TestnetMagic : Nat := 0xba657645

/-! ## Hex encoding

Model of Go's `encoding/hex` (external standard library): lower-case
hexadecimal, two digits per byte; decoding stops at the first byte that is
not a full pair of hex digits, returning the bytes decoded so far (the Go
callers in this package discard the returned error). -/

def hexDigit (n : Nat) : Char :=
  if n < 10 then Char.ofNat (48 + n) else Char.ofNat (87 + n)

def hexByte (b : Nat) : List Char :=
  [hexDigit (b / 16 % 16), hexDigit (b % 16)]

def hexEncode (l : List Nat) : String :=
  ⟨l.foldr (fun b acc => hexByte b ++ acc) []⟩

def hexDigitVal (c : Char) : Option Nat :=
  if 48 ≤ c.toNat ∧ c.toNat ≤ 57 then some (c.toNat - 48)
  else if 97 ≤ c.toNat ∧ c.toNat ≤ 102 then some (c.toNat - 87)
  else if 65 ≤ c.toNat ∧ c.toNat ≤ 70 then some (c.toNat - 55)
  else none

def hexDecodePairs : List Char → List Nat
  | c1 :: c2 :: rest =>
    match hexDigitVal c1, hexDigitVal c2 with
    | some hi, some lo => (16 * hi + lo) :: hexDecodePairs rest
    | _, _ => []
  | _ => []

/-! ## Script predicates (`dogec.go`, bottom of file) -/

def isZeroCoinMintScript (signatureScript : List Nat) : Bool :=
  decide (1 < signatureScript.length) && (signatureScript.getD 0 0 == OP_ZEROCOINMINT)

def isZeroCoinSpendScript (signatureScript : List Nat) : Bool :=
  decide (100 ≤ signatureScript.length) && (signatureScript.getD 0 0 == OP_ZEROCOINSPEND)

def isCoinBaseFakeAddr (signatureScript : List Nat) : Bool :=
  decide (signatureScript.length = 1) && (signatureScript.getD 0 0 == CBASE_ADDR_INT)

def isCoinStakeFakeAddr (signatureScript : List Nat) : Bool :=
  decide (signatureScript.length = 1) && (signatureScript.getD 0 0 == CSTAKE_ADDR_INT)

/-! ## Chain parameters (`GetChainParams`)

The lazy one-time registration against the external `chaincfg` registry is
state of the external library and is omitted; the embedded function is the
chain-name dispatch of `GetChainParams`. -/

structure ChainParams where
  net : Nat
  pubKeyHashAddrID : List Nat
  scriptHashAddrID : List Nat
  privateKeyID : List Nat
deriving Repr, DecidableEq

def MainNetParams : ChainParams :=
  { net := MainnetMagic
    pubKeyHashAddrID := [30]
    scriptHashAddrID := [19]
    privateKeyID := [122] }

def TestNetParams : ChainParams :=
  { net := TestnetMagic
    pubKeyHashAddrID := [139]
    scriptHashAddrID := [19]
    privateKeyID := [239] }

def GetChainParams (chain : String) : ChainParams :=
  if chain = "test" then TestNetParams else MainNetParams

/-! ## Next superblock height (`dogecrpc.go`)

Go's `%` on `int` is truncated division, embedded as `Int.tmod`; the Go
`int` is modelled as an unbounded `Int`. -/

def GetNextSuperBlock (nHeight : Int) : Int :=
  nHeight - Int.tmod nHeight nBlocksPerPeriod + nBlocksPerPeriod

/-! ## Wire transaction data model (external `wire` package shapes) -/

def maxUint32 : Nat := 4294967295

def zeroHash : List Nat := List.replicate 32 0

structure OutPoint where
  hash : List Nat := zeroHash
  index : Nat := 0
deriving Repr, DecidableEq

structure TxIn where
  previousOutPoint : OutPoint := {}
  signatureScript : List Nat := []
  sequence : Nat := 0
deriving Repr, DecidableEq

structure TxOut where
  value : Int := 0
  pkScript : List Nat := []
deriving Repr, DecidableEq

structure MsgTx where
  version : Int := 0
  txIn : List TxIn := []
  txOut : List TxOut := []
  lockTime : Nat := 0
deriving Repr, DecidableEq

/-- Modelled from the spec: the baseline coinbase predicate over a wire
transaction (`blockchain.IsCoinBaseTx` of the external btcd library, an
external collaborator of this repository): a transaction is coinbase iff it
has exactly one input whose previous outpoint is the null outpoint (all-zero
hash, maximal `uint32` index). -/
def IsCoinBaseTx (t : MsgTx) : Bool :=
  match t.txIn with
  | [inp] => (inp.previousOutPoint.index == maxUint32) && (inp.previousOutPoint.hash == zeroHash)
  | _ => false

/-- Model of the external `chainhash.Hash.String`: the hash bytes printed in
hexadecimal in reverse order. -/
def chainhashString (h : List Nat) : String := hexEncode h.reverse

/-! ## Decoded transaction data model (`bchain` package shapes)

`Vin.coinbase` empty means the field is unset (Go zero value); `addresses`
is `none` for a nil Go slice and `some l` for a non-nil slice `l`. -/

structure ScriptSig where
  hex : String := ""
deriving Repr, DecidableEq

structure Vin where
  coinbase : String := ""
  txid : String := ""
  vout : Nat := 0
  sequence : Nat := 0
  scriptSig : ScriptSig := {}
deriving Repr, DecidableEq

structure Vout where
  valueSat : Int := 0
  jsonValue : String := ""
  n : Nat := 0
  scriptPubKeyHex : String := ""
  addresses : Option (List String) := none
deriving Repr, DecidableEq

structure Tx where
  txid : String := ""
  version : Int := 0
  lockTime : Nat := 0
  vin : List Vin := []
  vout : List Vout := []
deriving Repr, DecidableEq

/-! ## Script classifier (`outputScriptToAddresses`)

The baseline Bitcoin script-to-address resolver is a parameter
`baseline : List Nat → List String × Bool × Bool` standing for the wrapped
`BitcoinOutputScriptToAddressesFunc`; the last component models whether the
baseline returned a non-nil error. -/

def outputScriptToAddresses (baseline : List Nat → List String × Bool × Bool)
    (script : List Nat) : List String × Bool × Bool :=
  if isZeroCoinSpendScript script then ([ZCSPEND_LABEL], false, false)
  else if isZeroCoinMintScript script then ([ZCMINT_LABEL], false, false)
  else if isCoinBaseFakeAddr script then ([CBASE_LABEL], false, false)
  else if isCoinStakeFakeAddr script then ([CSTAKE_LABEL], false, false)
  else ((baseline script).1, (baseline script).2.1, false)

/-! ## Transaction decoder (`TxFromMsgTx`)

The input loop of `TxFromMsgTx` pre-allocates `len(t.TxIn)` zero-valued
entries and exits early (`break`) after writing a coinbase entry, leaving
any remaining entries zero-valued; `txVins` reproduces that. The transaction
hash (`t.TxHash()`, external double-SHA256 wire serialization) is a
parameter `txHash`. -/

def txVins (t : MsgTx) : List TxIn → List Vin
  | [] => []
  | inp :: rest =>
    if !isZeroCoinSpendScript inp.signatureScript && IsCoinBaseTx t then
      { coinbase := hexEncode inp.signatureScript, sequence := inp.sequence } ::
        rest.map (fun _ => ({} : Vin))
    else
      { txid := chainhashString inp.previousOutPoint.hash
        vout := inp.previousOutPoint.index
        sequence := inp.sequence
        scriptSig := { hex := hexEncode inp.signatureScript } } :: txVins t rest

def voutFromTxOut (t : MsgTx) (parseAddresses : Bool)
    (baseline : List Nat → List String × Bool × Bool) (i : Nat) (out : TxOut) : Vout :=
  let addrs : List String :=
    if parseAddresses then (outputScriptToAddresses baseline out.pkScript).1 else []
  let hex0 := hexEncode out.pkScript
  let hex1 :=
    if hex0 = "" then
      if IsCoinBaseTx t && !isZeroCoinSpendScript ((t.txIn.headD {}).signatureScript) then
        String.mk (hexByte CBASE_ADDR_INT)
      else
        String.mk (hexByte CSTAKE_ADDR_INT)
    else hex0
  { valueSat := out.value, n := i, scriptPubKeyHex := hex1, addresses := some addrs }

def txVouts (t : MsgTx) (parseAddresses : Bool)
    (baseline : List Nat → List String × Bool × Bool) : Nat → List TxOut → List Vout
  | _, [] => []
  | i, out :: rest =>
    voutFromTxOut t parseAddresses baseline i out ::
      txVouts t parseAddresses baseline (i + 1) rest

def TxFromMsgTx (txHash : MsgTx → String)
    (baseline : List Nat → List String × Bool × Bool)
    (t : MsgTx) (parseAddresses : Bool) : Tx :=
  { txid := txHash t
    version := t.version
    lockTime := t.lockTime
    vin := txVins t t.txIn
    vout := txVouts t parseAddresses baseline 0 t.txOut }

/-! ## JSON transaction path (`ParseTxFromJson`, `isCoinbaseTx`)

The JSON unmarshalling itself is the external standard library; the
embedded function starts from the unmarshalled `Tx` and performs the
per-output normalization loop. `p.AmountToBigInt` (baseline parser) is the
parameter `amountToBigInt`. -/

def isCoinbaseTx (tx : Tx) : Bool :=
  decide (tx.vin.length = 1) && ((tx.vin.headD {}).coinbase != "")
    && ((tx.vin.headD {}).sequence == maxUint32)

def parseJsonVout (amountToBigInt : String → Option Int) (tx : Tx) (v : Vout) : Option Vout :=
  match amountToBigInt v.jsonValue with
  | none => none
  | some val =>
    let v1 : Vout := { v with valueSat := val, jsonValue := "" }
    let v2 : Vout := if v1.addresses = none then { v1 with addresses := some [] } else v1
    let v3 : Vout :=
      if v2.scriptPubKeyHex = "" then
        { v2 with scriptPubKeyHex :=
            if isCoinbaseTx tx then String.mk (hexByte CBASE_ADDR_INT)
            else String.mk (hexByte CSTAKE_ADDR_INT) }
      else v2
    some v3

def ParseTxFromJson (amountToBigInt : String → Option Int) (tx : Tx) : Option Tx :=
  match tx.vout.mapM (parseJsonVout amountToBigInt tx) with
  | none => none
  | some vs => some { tx with vout := vs }

/-! ## Coin-spend value decoder (`GetValueSatFromZerocoinSpend`)

The byte readers correspond to the repository's `Uint8`/`Uint32` helpers,
which live outside these source files; `bytes.Reader.Seek` past the end
succeeds and later reads fail, which positional indexing reproduces. -/

/-- Modelled from the spec: the repository's `Uint8` reader (not among these
source files) — read one unsigned byte at the current position, failing when
the buffer is exhausted. -/
def readUint8 (buf : List Nat) (pos : Nat) : Option (Nat × Nat) :=
  match buf[pos]? with
  | some b => some (b, pos + 1)
  | none => none

/-- Modelled from the spec: the repository's `Uint32` little-endian reader
(not among these source files) — read four bytes little-endian, failing when
fewer than four bytes remain. -/
def readUint32LE (buf : List Nat) (pos : Nat) : Option (Nat × Nat) :=
  match buf[pos]?, buf[pos + 1]?, buf[pos + 2]?, buf[pos + 3]? with
  | some b0, some b1, some b2, some b3 =>
    some (b0 + 256 * b1 + 65536 * b2 + 16777216 * b3, pos + 4)
  | _, _, _, _ => none

def GetValueSatFromZerocoinSpend (signatureScript : List Nat) : Option Int :=
  match readUint8 signatureScript 1 with
  | none => none
  | some (l, pos1) =>
    match readUint32LE signatureScript (pos1 + l) with
    | none => none
    | some (denom, _) => some ((denom : Int) * 100000000)

/-- Go slice indexing at an `int` index: the access panics — modelled as
`none` — when the index is negative or at least the slice length. -/
def goSliceIndex {α : Type} (l : List α) (i : Int) : Option α :=
  if 0 ≤ i then l[i.toNat]? else none

/-- Model of `GetValueSatForUnknownInput`; the Go `input` parameter is a
signed `int`, so after the length guard `len(tx.Vin) > input` the slice
access `tx.Vin[input]` still panics for every negative index, modelled as
the `none` result (`some` wraps the returned `*big.Int` of a run that
completes). -/
def GetValueSatForUnknownInput (tx : Tx) (input : Int) : Option Int :=
  if (tx.vin.length : Int) > input then
    match goSliceIndex tx.vin input with
    | none => none
    | some vin =>
      if vin.scriptSig.hex ≠ "" then
        let script := hexDecodePairs vin.scriptSig.hex.data
        if isZeroCoinSpendScript script then
          match GetValueSatFromZerocoinSpend script with
          | none => some 0
          | some v => some v
        else some 0
      else some 0
  else some 0

/-! ## Block decoder (`ParseBlock`)

The external `wire.BlockHeader.Deserialize` consumes exactly 80 bytes
(version at offset 0, timestamp at offset 68, both little-endian; the
version is a signed 32-bit integer) and fails iff fewer than 80 bytes are
available.  The external `utils.DecodeTransactions` is the parameter
`decodeTransactions`, applied to the bytes remaining after the header and
the conditional 32-byte accumulator-checkpoint skip. -/

def leU32At (l : List Nat) (pos : Nat) : Nat :=
  l.getD pos 0 + 256 * l.getD (pos + 1) 0 + 65536 * l.getD (pos + 2) 0
    + 16777216 * l.getD (pos + 3) 0

def int32OfBits (n : Nat) : Int :=
  if n < 2147483648 then (n : Int) else (n : Int) - 4294967296

def headerVersion (b : List Nat) : Int := int32OfBits (leU32At b 0)

def headerTime (b : List Nat) : Nat := leU32At b 68

structure ParsedBlock where
  size : Nat
  time : Nat
  txs : List Tx
deriving Repr, DecidableEq

def ParseBlock (decodeTransactions : List Nat → Option (List MsgTx))
    (txHash : MsgTx → String)
    (baseline : List Nat → List String × Bool × Bool)
    (b : List Nat) : Option ParsedBlock :=
  if b.length < 80 then none
  else
    let v := headerVersion b
    let rest := b.drop 80
    let rest1 := if 3 < v ∧ v < 7 then rest.drop 32 else rest
    match decodeTransactions rest1 with
    | none => none
    | some ts =>
      some { size := b.length
             time := headerTime b
             txs := ts.map (fun t => TxFromMsgTx txHash baseline t false) }

/-! ## RPC augmentation (`dogecrpc.go`)

The JSON-RPC transport `b.Call` is external; each embedded function takes
the outcome of its calls as parameters: a transport failure is
`Except.error`, a successful transport delivery is `Except.ok` carrying the
decoded response struct (which may still hold an RPC error object). -/

structure RPCError where
  code : Int := 0
  message : String := ""
deriving Repr, DecidableEq

inductive CallError where
  | transport (e : String)
  | rpc (e : RPCError)
deriving Repr, DecidableEq

structure ResFindSerial where
  error : Option RPCError := none
  success : Bool := false
  txid : String := ""
deriving Repr, DecidableEq

def Findzcserial (callResult : Except String ResFindSerial) : String × Option CallError :=
  match callResult with
  | .error e => ("", some (.transport e))
  | .ok res =>
    match res.error with
    | some e => ("", some (.rpc e))
    | none =>
      if !res.success then ("Serial not found in blockchain", none)
      else (res.txid, none)

structure ChainInfo where
  headers : Int := 0
  moneySupply : String := ""
  zerocoinSupply : String := ""
  masternodeCount : Int := 0
  nextSuperBlock : Int := 0
deriving Repr, DecidableEq

structure ResGetInfo where
  error : Option RPCError := none
  moneySupply : String := ""
  zerocoinSupply : String := ""
deriving Repr, DecidableEq

structure ResGetMasternodeCount where
  error : Option RPCError := none
  total : Int := 0
  stable : Int := 0
  enabled : Int := 0
  inqueue : Int := 0
deriving Repr, DecidableEq

def GetChainInfo (baseline : Except String ChainInfo)
    (giRes : Except String ResGetInfo)
    (mcRes : Except String ResGetMasternodeCount) : Except CallError ChainInfo :=
  match baseline with
  | .error e => .error (.transport e)
  | .ok rv =>
    match giRes with
    | .error e => .error (.transport e)
    | .ok resGi =>
      match resGi.error with
      | some e => .error (.rpc e)
      | none =>
        let rv1 := { rv with moneySupply := resGi.moneySupply
                             zerocoinSupply := resGi.zerocoinSupply }
        match mcRes with
        | .error e => .error (.transport e)
        | .ok resMc =>
          match resMc.error with
          | some e => .error (.rpc e)
          | none =>
            let rv2 := { rv1 with masternodeCount := resMc.enabled }
            let rv3 := { rv2 with nextSuperBlock := GetNextSuperBlock rv2.headers }
            .ok rv3

/-! ## Concrete inputs used by witnesses and counterexamples -/

/-- A well-formed coin-spend unlocking script: opcode, proof length 94,
94 opaque proof bytes, then the denomination 5 little-endian (100 bytes). -/
def wSpendScript : List Nat := 0xc2 :: 94 :: (List.replicate 94 0 ++ [5, 0, 0, 0])

def wSpendTx : Tx := { vin := [{ scriptSig := { hex := hexEncode wSpendScript } }] }

/-- A 100-byte coin-spend script with arbitrary proof payload. -/
def wSpendScript99 : List Nat := 0xc2 :: List.replicate 99 0

def wC1In : TxIn :=
  { previousOutPoint := { hash := zeroHash, index := maxUint32 }
    signatureScript := wSpendScript99
    sequence := 7 }

def wC1Tx : MsgTx := { txIn := [wC1In] }

/-- A decoded (JSON-path) transaction whose single input carries both a
non-empty coinbase marker with maximal sequence and a coin-spend unlocking
script (in both the coinbase field and the scriptSig field). -/
def jsonTxC3 : Tx :=
  { vin := [{ coinbase := hexEncode wSpendScript99
              sequence := maxUint32
              scriptSig := { hex := hexEncode wSpendScript99 } }]
    vout := [{ jsonValue := "0" }] }

/-- A decoded transaction with a single (default) input, used to exercise
the negative-index slice access. -/
def wC7Tx : Tx := { vin := [{}] }

/-- A coinbase wire transaction (null previous outpoint, short non-spend
signature script) with one script-less output. -/
def wC3Tx : MsgTx :=
  { txIn := [{ previousOutPoint := { hash := zeroHash, index := maxUint32 }
               signatureScript := [0, 1]
               sequence := 1 }]
    txOut := [{ value := 3, pkScript := [] }] }

/-! ## Theorems: C5 and C10 -/

/-- C5: for every non-negative height `h`, `GetNextSuperBlock h` equals
`h - h % 43200 + 43200`, which is the smallest multiple of 43200 strictly
greater than `h`; in particular the function maps 0 to 43200, 43200 to
86400 (never returning its input even when aligned) and 43199 to 43200. -/
theorem getNextSuperBlock_spec (h : Int) (hh : 0 ≤ h) :
    GetNextSuperBlock h = h - h % 43200 + 43200
    ∧ (43200 : Int) ∣ GetNextSuperBlock h
    ∧ h < GetNextSuperBlock h
    ∧ (∀ m : Int, (43200 : Int) ∣ m → h < m → GetNextSuperBlock h ≤ m)
    ∧ GetNextSuperBlock 0 = 43200
    ∧ GetNextSuperBlock 43200 = 86400
    ∧ GetNextSuperBlock 43199 = 43200 := by
  have htm : Int.tmod h 43200 = h % 43200 := by
    rw [Int.tmod_eq_emod hh (by norm_num)]
  have hper : nBlocksPerPeriod = (43200 : Int) := rfl
  have hmod : h % 43200 = h - 43200 * (h / 43200) := Int.emod_def h 43200
  have hlt : h % 43200 < 43200 := Int.emod_lt_of_pos h (by norm_num)
  have hge : 0 ≤ h % 43200 := Int.emod_nonneg h (by norm_num)
  refine ⟨by rw [GetNextSuperBlock, hper, htm], ?_, ?_, ?_, by decide, by decide, by decide⟩
  · rw [GetNextSuperBlock, hper, htm]
    exact ⟨h / 43200 + 1, by rw [hmod]; ring⟩
  · rw [GetNextSuperBlock, hper, htm]; omega
  · intro m hdvd hm
    obtain ⟨k, hk⟩ := hdvd
    rw [GetNextSuperBlock, hper, htm]
    omega

/-- Witness for `getNextSuperBlock_spec` at the concrete height 5. -/
theorem getNextSuperBlock_spec_witness :
    GetNextSuperBlock 5 = 5 - 5 % 43200 + 43200 :=
  (getNextSuperBlock_spec 5 (by decide)).1

/-- C10: every chain name other than the exact string `"test"` — including
`"main"`, the empty string and any unrecognized name — yields the mainnet
parameter set; only `"test"` yields the testnet parameters, and the function
is total (no failure, no absent result). -/
theorem getChainParams_spec :
    (∀ chain : String, chain ≠ "test" → GetChainParams chain = MainNetParams)
    ∧ GetChainParams "test" = TestNetParams
    ∧ GetChainParams "main" = MainNetParams
    ∧ GetChainParams "" = MainNetParams := by
  refine ⟨?_, rfl, rfl, rfl⟩
  intro chain hne
  rw [GetChainParams, if_neg hne]

/-- Witness for `getChainParams_spec` at the concrete chain name `"main"`. -/
theorem getChainParams_spec_witness : GetChainParams "main" = MainNetParams :=
  getChainParams_spec.1 "main" (by decide)

/-! ## Theorems: C8 and C9 -/

/-- C8: when the findserial transport call succeeds and the response has no
RPC error object, a false success flag yields the literal string
"Serial not found in blockchain" with no error and a true success flag
yields the response txid; a transport failure or an RPC error object is
returned as an error with an empty result string. -/
theorem findzcserial_spec :
    (∀ res : ResFindSerial, res.error = none → res.success = false →
      Findzcserial (.ok res) = ("Serial not found in blockchain", none))
    ∧ (∀ res : ResFindSerial, res.error = none → res.success = true →
      Findzcserial (.ok res) = (res.txid, none))
    ∧ (∀ e : String, Findzcserial (.error e) = ("", some (.transport e)))
    ∧ (∀ (res : ResFindSerial) (e : RPCError), res.error = some e →
      Findzcserial (.ok res) = ("", some (.rpc e))) := by
  refine ⟨?_, ?_, fun e => rfl, ?_⟩
  · intro res he hs
    simp [Findzcserial, he, hs]
  · intro res he hs
    simp [Findzcserial, he, hs]
  · intro res e he
    simp [Findzcserial, he]

/-- Witness for `findzcserial_spec`: a concrete well-formed not-found
response yields the literal outcome with no error. -/
theorem findzcserial_spec_witness :
    Findzcserial (.ok { error := none, success := false, txid := "t0" }) =
      ("Serial not found in blockchain", none) :=
  findzcserial_spec.1 { error := none, success := false, txid := "t0" } rfl rfl

/-- C9: GetChainInfo fails whenever the baseline fetch, the getinfo call or
the getmasternodecount call fails at the transport level or carries an RPC
error object; on success the masternode count is the response's enabled
field and the next-superblock field is GetNextSuperBlock of the baseline
headers count. -/
theorem getChainInfo_spec :
    (∀ e gi mc, GetChainInfo (.error e) gi mc = .error (.transport e))
    ∧ (∀ rv e mc, GetChainInfo (.ok rv) (.error e) mc = .error (.transport e))
    ∧ (∀ rv gi mc e, gi.error = some e →
        GetChainInfo (.ok rv) (.ok gi) mc = .error (.rpc e))
    ∧ (∀ rv gi e, gi.error = none →
        GetChainInfo (.ok rv) (.ok gi) (.error e) = .error (.transport e))
    ∧ (∀ rv gi mc e, gi.error = none → mc.error = some e →
        GetChainInfo (.ok rv) (.ok gi) (.ok mc) = .error (.rpc e))
    ∧ (∀ rv gi mc, gi.error = none → mc.error = none →
        GetChainInfo (.ok rv) (.ok gi) (.ok mc) =
          .ok { rv with moneySupply := gi.moneySupply
                        zerocoinSupply := gi.zerocoinSupply
                        masternodeCount := mc.enabled
                        nextSuperBlock := GetNextSuperBlock rv.headers }) := by
  refine ⟨fun e gi mc => rfl, fun rv e mc => rfl, ?_, ?_, ?_, ?_⟩
  · intro rv gi mc e he
    simp [GetChainInfo, he]
  · intro rv gi e he
    simp [GetChainInfo, he]
  · intro rv gi mc e he hm
    simp [GetChainInfo, he, hm]
  · intro rv gi mc he hm
    simp [GetChainInfo, he, hm]

/-- Witness for `getChainInfo_spec`: a concrete fully successful call merges
the enabled masternode count and computes the next superblock from the
baseline headers count. -/
theorem getChainInfo_spec_witness :
    GetChainInfo (.ok { headers := 10 }) (.ok { moneySupply := "21" })
        (.ok { enabled := 7 }) =
      .ok { headers := 10, moneySupply := "21", zerocoinSupply := ""
            masternodeCount := 7, nextSuperBlock := GetNextSuperBlock 10 } :=
  getChainInfo_spec.2.2.2.2.2 { headers := 10 } { moneySupply := "21" }
    { enabled := 7 } rfl rfl

/-! ## Theorems: C2 (coin-spend value decoder) -/

theorem readUint32LE_append (pre post : List Nat) (h4 : 4 ≤ post.length) :
    readUint32LE (pre ++ post) pre.length = some (leU32At post 0, pre.length + 4) := by
  obtain ⟨b0, b1, b2, b3, rest, rfl⟩ :
      ∃ b0 b1 b2 b3 rest, post = b0 :: b1 :: b2 :: b3 :: rest := by
    rcases post with _ | ⟨b0, _ | ⟨b1, _ | ⟨b2, _ | ⟨b3, rest⟩⟩⟩⟩
    · simp at h4
    · simp at h4
    · simp at h4
    · simp at h4
    · exact ⟨b0, b1, b2, b3, rest, rfl⟩
  have g : ∀ k, (pre ++ (b0 :: b1 :: b2 :: b3 :: rest))[pre.length + k]? =
      (b0 :: b1 :: b2 :: b3 :: rest)[k]? := by
    intro k
    rw [List.getElem?_append_right (by omega)]
    simp
  have e0 := g 0
  rw [Nat.add_zero] at e0
  rw [readUint32LE, e0, g 1, g 2, g 3]
  simp [leU32At]

theorem readUint32LE_eq_none (buf : List Nat) (pos : Nat) (h : buf.length ≤ pos + 3) :
    readUint32LE buf pos = none := by
  have h3 : buf[pos + 3]? = none := List.getElem?_eq_none h
  rw [readUint32LE, h3]
  cases buf[pos]? <;> cases buf[pos + 1]? <;> cases buf[pos + 2]? <;> rfl

/-- C2: for every buffer laid out as one opcode byte, one length byte `L`,
`L` opaque proof bytes and 4 denomination bytes, the decoder returns the
little-endian value of the 4 bytes times 10^8; the concrete example buffer
yields 5 × 10^8; every buffer too short to supply the length byte or the
4 denomination bytes (including when skipping `L` bytes runs past the end)
fails with `none` rather than returning a partial or zero value. -/
theorem getValueSatFromZerocoinSpend_spec :
    (∀ (op lenByte : Nat) (proofBytes denomBytes : List Nat),
      proofBytes.length = lenByte → denomBytes.length = 4 →
      GetValueSatFromZerocoinSpend (op :: lenByte :: (proofBytes ++ denomBytes)) =
        some ((leU32At denomBytes 0 : Int) * 100000000))
    ∧ GetValueSatFromZerocoinSpend [OP_ZEROCOINSPEND, 2, 0xaa, 0xbb, 5, 0, 0, 0] =
        some (5 * 100000000)
    ∧ (∀ s : List Nat, s.length < 6 + s.getD 1 0 →
        GetValueSatFromZerocoinSpend s = none) := by
  refine ⟨?_, by decide, ?_⟩
  · intro op lenByte proofBytes denomBytes hL h4
    have h1 : readUint8 (op :: lenByte :: (proofBytes ++ denomBytes)) 1 =
        some (lenByte, 2) := by simp [readUint8]
    have hpre : (op :: lenByte :: proofBytes).length = 2 + lenByte := by
      simp [hL]; omega
    have h2 : readUint32LE (op :: lenByte :: (proofBytes ++ denomBytes)) (2 + lenByte) =
        some (leU32At denomBytes 0, 2 + lenByte + 4) := by
      have happ := readUint32LE_append (op :: lenByte :: proofBytes) denomBytes (by omega)
      rw [hpre] at happ
      simpa using happ
    simp only [GetValueSatFromZerocoinSpend, h1, h2]
  · intro s hs
    rw [GetValueSatFromZerocoinSpend]
    cases h1 : readUint8 s 1 with
    | none => rfl
    | some p =>
      obtain ⟨l, pos1⟩ := p
      rw [readUint8] at h1
      cases hg : s[1]? with
      | none =>
        rw [hg] at h1
        exact absurd h1 (by simp)
      | some b =>
        rw [hg] at h1
        simp only [Option.some.injEq, Prod.mk.injEq] at h1
        obtain ⟨rfl, hpos⟩ := h1
        subst hpos
        have hd : s.getD 1 0 = b := by
          rw [List.getD_eq_getElem?_getD, hg]
          rfl
        have hnone := readUint32LE_eq_none s (1 + 1 + b) (by rw [hd] at hs; omega)
        simp only [hnone]

/-- Witness for `getValueSatFromZerocoinSpend_spec`: the layout clause at the
concrete buffer with proof length 2 and denomination 5. -/
theorem getValueSatFromZerocoinSpend_spec_witness :
    GetValueSatFromZerocoinSpend (0xc2 :: 2 :: ([0xaa, 0xbb] ++ [5, 0, 0, 0])) =
      some ((leU32At [5, 0, 0, 0] 0 : Int) * 100000000) :=
  getValueSatFromZerocoinSpend_spec.1 0xc2 2 [0xaa, 0xbb] [5, 0, 0, 0] rfl rfl

/-! ## Theorems: C6 (script classifier) -/

theorem isZeroCoinSpendScript_iff (s : List Nat) :
    isZeroCoinSpendScript s = true ↔ 100 ≤ s.length ∧ s.getD 0 0 = OP_ZEROCOINSPEND := by
  simp [isZeroCoinSpendScript]

theorem isZeroCoinMintScript_iff (s : List Nat) :
    isZeroCoinMintScript s = true ↔ 1 < s.length ∧ s.getD 0 0 = OP_ZEROCOINMINT := by
  simp [isZeroCoinMintScript]

theorem isCoinBaseFakeAddr_iff (s : List Nat) :
    isCoinBaseFakeAddr s = true ↔ s = [CBASE_ADDR_INT] := by
  simp only [isCoinBaseFakeAddr, Bool.and_eq_true, decide_eq_true_eq, beq_iff_eq]
  constructor
  · rintro ⟨h1, h2⟩
    obtain ⟨a, rfl⟩ := List.length_eq_one.mp h1
    simpa using h2
  · rintro rfl
    exact ⟨rfl, rfl⟩

theorem isCoinStakeFakeAddr_iff (s : List Nat) :
    isCoinStakeFakeAddr s = true ↔ s = [CSTAKE_ADDR_INT] := by
  simp only [isCoinStakeFakeAddr, Bool.and_eq_true, decide_eq_true_eq, beq_iff_eq]
  constructor
  · rintro ⟨h1, h2⟩
    obtain ⟨a, rfl⟩ := List.length_eq_one.mp h1
    simpa using h2
  · rintro rfl
    exact ⟨rfl, rfl⟩

/-- C6: the classifier evaluates its rules in a fixed order and returns the
first match — coin-spend scripts (length at least 100, first byte the spend
opcode), then coin-mint scripts (length above 1, first byte the mint
opcode), then the exact one-byte coinbase sentinel, then the exact one-byte
stake sentinel, and otherwise the baseline resolver's labels and resolved
flag unchanged; the error component is always absent, even when the
baseline resolver reports an error. -/
theorem outputScriptToAddresses_spec (baseline : List Nat → List String × Bool × Bool)
    (s : List Nat) :
    outputScriptToAddresses baseline s =
      if 100 ≤ s.length ∧ s.getD 0 0 = OP_ZEROCOINSPEND then ([ZCSPEND_LABEL], false, false)
      else if 1 < s.length ∧ s.getD 0 0 = OP_ZEROCOINMINT then ([ZCMINT_LABEL], false, false)
      else if s = [CBASE_ADDR_INT] then ([CBASE_LABEL], false, false)
      else if s = [CSTAKE_ADDR_INT] then ([CSTAKE_LABEL], false, false)
      else ((baseline s).1, (baseline s).2.1, false) := by
  rw [outputScriptToAddresses]
  by_cases h1 : 100 ≤ s.length ∧ s.getD 0 0 = OP_ZEROCOINSPEND
  · rw [if_pos ((isZeroCoinSpendScript_iff s).mpr h1), if_pos h1]
  · rw [if_neg (fun hc => h1 ((isZeroCoinSpendScript_iff s).mp hc)), if_neg h1]
    by_cases h2 : 1 < s.length ∧ s.getD 0 0 = OP_ZEROCOINMINT
    · rw [if_pos ((isZeroCoinMintScript_iff s).mpr h2), if_pos h2]
    · rw [if_neg (fun hc => h2 ((isZeroCoinMintScript_iff s).mp hc)), if_neg h2]
      by_cases h3 : s = [CBASE_ADDR_INT]
      · rw [if_pos ((isCoinBaseFakeAddr_iff s).mpr h3), if_pos h3]
      · rw [if_neg (fun hc => h3 ((isCoinBaseFakeAddr_iff s).mp hc)), if_neg h3]
        by_cases h4 : s = [CSTAKE_ADDR_INT]
        · rw [if_pos ((isCoinStakeFakeAddr_iff s).mpr h4), if_pos h4]
        · rw [if_neg (fun hc => h4 ((isCoinStakeFakeAddr_iff s).mp hc)), if_neg h4]

/-! ## Theorems: C7 (value for unknown input) -/

/-- C7 counterexample: at the concrete negative index -1 on a transaction
with one input, the length guard len(tx.Vin) > input passes and the slice
access tx.Vin[input] panics — the run fails (`none`) instead of returning
the zero value the claim demands for every out-of-range index. -/
theorem getValueSatForUnknownInput_negative_counterexample :
    ((wC7Tx.vin.length : Int) > -1)
    ∧ GetValueSatForUnknownInput wC7Tx (-1) = none :=
  ⟨by decide, by decide⟩

/-- C7 (amended): for every negative input index the length guard passes
and the slice access panics; for every non-negative input index the
function never fails — it returns the decoded coin-spend value when the
index is in range, the input script hex is non-empty, the decoded script is
a recognized coin-spend script and the value extraction succeeds, and in
every other case — index at or past the number of inputs, empty script hex,
non-spend script, or a failing value decode — it returns zero instead of
propagating a failure. -/
theorem getValueSatForUnknownInput_spec (tx : Tx) (input : Int) :
    (input < 0 → GetValueSatForUnknownInput tx input = none)
    ∧ (0 ≤ input → tx.vin.length ≤ input.toNat →
        GetValueSatForUnknownInput tx input = some 0)
    ∧ (∀ v : Vin, 0 ≤ input → tx.vin[input.toNat]? = some v →
        v.scriptSig.hex = "" →
        GetValueSatForUnknownInput tx input = some 0)
    ∧ (∀ v : Vin, 0 ≤ input → tx.vin[input.toNat]? = some v →
        isZeroCoinSpendScript (hexDecodePairs v.scriptSig.hex.data) = false →
        GetValueSatForUnknownInput tx input = some 0)
    ∧ (∀ v : Vin, 0 ≤ input → tx.vin[input.toNat]? = some v →
        v.scriptSig.hex ≠ "" →
        isZeroCoinSpendScript (hexDecodePairs v.scriptSig.hex.data) = true →
        GetValueSatFromZerocoinSpend (hexDecodePairs v.scriptSig.hex.data) = none →
        GetValueSatForUnknownInput tx input = some 0)
    ∧ (∀ (v : Vin) (val : Int), 0 ≤ input → tx.vin[input.toNat]? = some v →
        v.scriptSig.hex ≠ "" →
        isZeroCoinSpendScript (hexDecodePairs v.scriptSig.hex.data) = true →
        GetValueSatFromZerocoinSpend (hexDecodePairs v.scriptSig.hex.data) = some val →
        GetValueSatForUnknownInput tx input = some val) := by
  have hguard : ∀ v : Vin, tx.vin[input.toNat]? = some v →
      input.toNat < tx.vin.length := by
    intro v hv
    by_contra hle
    rw [List.getElem?_eq_none (by omega)] at hv
    exact Option.noConfusion hv
  refine ⟨?_, ?_, ?_, ?_, ?_, ?_⟩
  · intro hneg
    rw [GetValueSatForUnknownInput, if_pos (by omega : (tx.vin.length : Int) > input),
      goSliceIndex, if_neg (by omega : ¬ (0 : Int) ≤ input)]
  · intro hpos hout
    rw [GetValueSatForUnknownInput,
      if_neg (by omega : ¬ (tx.vin.length : Int) > input)]
  · intro v hpos hv he
    have := hguard v hv
    rw [GetValueSatForUnknownInput, if_pos (by omega : (tx.vin.length : Int) > input),
      goSliceIndex, if_pos hpos, hv]
    simp [he]
  · intro v hpos hv hns
    have := hguard v hv
    rw [GetValueSatForUnknownInput, if_pos (by omega : (tx.vin.length : Int) > input),
      goSliceIndex, if_pos hpos, hv]
    by_cases he : v.scriptSig.hex = ""
    · simp [he]
    · simp [he, hns]
  · intro v hpos hv hne hsp hdec
    have := hguard v hv
    rw [GetValueSatForUnknownInput, if_pos (by omega : (tx.vin.length : Int) > input),
      goSliceIndex, if_pos hpos, hv]
    simp [hne, hsp, hdec]
  · intro v val hpos hv hne hsp hdec
    have := hguard v hv
    rw [GetValueSatForUnknownInput, if_pos (by omega : (tx.vin.length : Int) > input),
      goSliceIndex, if_pos hpos, hv]
    simp [hne, hsp, hdec]

set_option maxRecDepth 8000 in
/-- Witness for `getValueSatForUnknownInput_spec`: a concrete transaction
whose single input holds a well-formed coin-spend script of denomination 5
yields 5 × 10^8 at the non-negative index 0. -/
theorem getValueSatForUnknownInput_spec_witness :
    GetValueSatForUnknownInput wSpendTx 0 = some 500000000 :=
  (getValueSatForUnknownInput_spec wSpendTx 0).2.2.2.2.2
    { scriptSig := { hex := hexEncode wSpendScript } } 500000000
    (by decide) (by decide) (by decide) (by decide) (by decide)

/-! ## Theorems: C1 (coin-spend input is never a coinbase input) -/

/-- C1: a wire transaction whose single input carries a recognized
coin-spend script (length at least 100, first byte the spend opcode) is
never decoded with a coinbase input, even when the baseline coinbase
predicate matches: the decoded input keeps the previous transaction id, the
output index, the sequence and the unlocking script bytes, and its coinbase
field stays empty. -/
theorem txFromMsgTx_spend_input_not_coinbase (txHash : MsgTx → String)
    (baseline : List Nat → List String × Bool × Bool)
    (t : MsgTx) (parseAddresses : Bool) (inp : TxIn)
    (hin : t.txIn = [inp])
    (hspend : isZeroCoinSpendScript inp.signatureScript = true) :
    (TxFromMsgTx txHash baseline t parseAddresses).vin =
      [{ coinbase := ""
         txid := chainhashString inp.previousOutPoint.hash
         vout := inp.previousOutPoint.index
         sequence := inp.sequence
         scriptSig := { hex := hexEncode inp.signatureScript } }] := by
  show txVins t t.txIn = _
  rw [hin]
  simp [txVins, hspend]

/-- Witness for `txFromMsgTx_spend_input_not_coinbase`: a concrete single
coin-spend input whose previous outpoint is the null outpoint — so the
baseline coinbase predicate holds — still keeps all its fields. -/
theorem txFromMsgTx_spend_input_not_coinbase_witness :
    IsCoinBaseTx wC1Tx = true ∧
    (TxFromMsgTx (fun _ => "h") (fun _ => ([], false, false)) wC1Tx true).vin =
      [{ coinbase := ""
         txid := chainhashString wC1In.previousOutPoint.hash
         vout := wC1In.previousOutPoint.index
         sequence := wC1In.sequence
         scriptSig := { hex := hexEncode wC1In.signatureScript } }] :=
  ⟨by decide,
   txFromMsgTx_spend_input_not_coinbase (fun _ => "h") (fun _ => ([], false, false))
     wC1Tx true wC1In rfl (by decide)⟩

/-! ## Theorems: C4 (block decoder) -/

/-- C4: for every raw block buffer long enough for the 80-byte header, the
transaction list is deserialized from the bytes following the header with
exactly 32 further bytes skipped iff the declared header version is 4, 5 or
6 — so no extra bytes for versions 3 and 7 — and the returned block's size
field is the total buffer length and its timestamp the header's timestamp. -/
theorem parseBlock_spec (decodeTransactions : List Nat → Option (List MsgTx))
    (txHash : MsgTx → String) (baseline : List Nat → List String × Bool × Bool)
    (b : List Nat) (hlen : 80 ≤ b.length) :
    ParseBlock decodeTransactions txHash baseline b =
      Option.map
        (fun ts => { size := b.length
                     time := headerTime b
                     txs := ts.map (fun t => TxFromMsgTx txHash baseline t false) })
        (decodeTransactions
          (if headerVersion b = 4 ∨ headerVersion b = 5 ∨ headerVersion b = 6
           then b.drop 112 else b.drop 80)) := by
  unfold ParseBlock
  rw [if_neg (by omega : ¬ b.length < 80)]
  dsimp only
  by_cases hv : 3 < headerVersion b ∧ headerVersion b < 7
  · rw [if_pos hv, if_pos (by omega : headerVersion b = 4 ∨ headerVersion b = 5
      ∨ headerVersion b = 6)]
    rw [List.drop_drop, (by norm_num : (80 : Nat) + 32 = 112)]
    cases decodeTransactions (b.drop 112) <;> rfl
  · rw [if_neg hv, if_neg (by omega : ¬ (headerVersion b = 4 ∨ headerVersion b = 5
      ∨ headerVersion b = 6))]
    cases decodeTransactions (b.drop 80) <;> rfl

/-- Witness for `parseBlock_spec`: an 80-byte all-zero buffer (declared
version 0) decoded with a transaction codec returning the empty list yields
a block of size 80 and timestamp 0. -/
theorem parseBlock_spec_witness :
    ParseBlock (fun _ => some []) (fun _ => "h") (fun _ => ([], false, false))
      (List.replicate 80 0) = some { size := 80, time := 0, txs := [] } := by
  rw [parseBlock_spec (fun _ => some []) (fun _ => "h") (fun _ => ([], false, false))
    (List.replicate 80 0) (by simp)]
  decide

/-! ## Theorems: C3 (sentinel substitution for empty locking scripts) -/

theorem hexEncode_nil : hexEncode [] = "" := rfl

theorem hexByte_cbase : String.mk (hexByte CBASE_ADDR_INT) = "f7" := by decide

theorem hexByte_cstake : String.mk (hexByte CSTAKE_ADDR_INT) = "f8" := by decide

theorem txVouts_getElem (t : MsgTx) (pa : Bool)
    (baseline : List Nat → List String × Bool × Bool) :
    ∀ (l : List TxOut) (n i : Nat),
      (txVouts t pa baseline n l)[i]? =
        (l[i]?).map (voutFromTxOut t pa baseline (n + i)) := by
  intro l
  induction l with
  | nil =>
    intro n i
    simp [txVouts]
  | cons out rest ih =>
    intro n i
    cases i with
    | zero => simp [txVouts]
    | succ j =>
      rw [show n + (j + 1) = n + 1 + j by omega]
      simp only [txVouts, List.getElem?_cons_succ]
      exact ih (n + 1) j

theorem voutFromTxOut_empty_script (t : MsgTx) (pa : Bool)
    (baseline : List Nat → List String × Bool × Bool) (i : Nat) (out : TxOut)
    (hempty : out.pkScript = []) :
    (voutFromTxOut t pa baseline i out).scriptPubKeyHex =
      if IsCoinBaseTx t = true
          ∧ isZeroCoinSpendScript ((t.txIn.headD {}).signatureScript) = false
      then "f7" else "f8" := by
  rw [voutFromTxOut, hempty]
  cases hcb : IsCoinBaseTx t <;>
    cases hsp : isZeroCoinSpendScript ((t.txIn.headD {}).signatureScript) <;>
      simp [hcb, hsp, hexEncode_nil, hexByte_cbase, hexByte_cstake]

theorem mapM_option_getElem {α β : Type} (f : α → Option β) :
    ∀ (l : List α) (res : List β), l.mapM f = some res →
      ∀ (j : Nat) (a : α), l[j]? = some a →
        ∃ b, res[j]? = some b ∧ f a = some b := by
  intro l
  induction l with
  | nil =>
    intro res hres j a ha
    simp at ha
  | cons x xs ih =>
    intro res hres j a ha
    rw [List.mapM_cons] at hres
    cases hfx : f x with
    | none =>
      rw [hfx] at hres
      simp at hres
    | some b0 =>
      rw [hfx] at hres
      cases hxs : xs.mapM f with
      | none =>
        rw [hxs] at hres
        simp at hres
      | some bs =>
        rw [hxs] at hres
        obtain rfl : b0 :: bs = res := by simpa using hres
        cases j with
        | zero =>
          obtain rfl : x = a := by simpa using ha
          exact ⟨b0, by simp, hfx⟩
        | succ k =>
          obtain ⟨b, hb1, hb2⟩ := ih bs hxs k a (by simpa using ha)
          exact ⟨b, by simpa using hb1, hb2⟩

theorem parseJsonVout_empty_script (amountToBigInt : String → Option Int)
    (tx : Tx) (vj b : Vout)
    (hhex : vj.scriptPubKeyHex = "")
    (hb : parseJsonVout amountToBigInt tx vj = some b) :
    b.scriptPubKeyHex = if isCoinbaseTx tx = true then "f7" else "f8" := by
  rw [parseJsonVout] at hb
  cases ha : amountToBigInt vj.jsonValue with
  | none =>
    rw [ha] at hb
    simp at hb
  | some val =>
    rw [ha] at hb
    simp only [Option.some.injEq] at hb
    subst hb
    cases hcb : isCoinbaseTx tx <;>
      simp [hcb, hhex, hexByte_cbase, hexByte_cstake, apply_ite]

/-- C3 (amended): an output whose locking-script hex is empty after baseline
decoding receives exactly one of the two single-byte sentinels, chosen only
from the owning transaction's classification, never from the output's
position, and on the binary path also when address resolution is disabled;
on the binary path the coinbase sentinel f7 is chosen iff the baseline
coinbase predicate holds and the sole input's script is not a recognized
coin-spend script, while on the JSON path it is chosen iff the decoded
transaction satisfies the JSON coinbase predicate (single input with a
non-empty coinbase marker and maximal sequence), regardless of the input's
script bytes. -/
theorem emptyScript_sentinel_substitution
    (txHash : MsgTx → String) (baseline : List Nat → List String × Bool × Bool)
    (amountToBigInt : String → Option Int)
    (t : MsgTx) (parseAddresses : Bool) (tx tx1 : Tx) :
    (∀ (i : Nat) (out : TxOut), t.txOut[i]? = some out → out.pkScript = [] →
      ∃ v : Vout, (TxFromMsgTx txHash baseline t parseAddresses).vout[i]? = some v ∧
        v.scriptPubKeyHex =
          (if IsCoinBaseTx t = true
              ∧ isZeroCoinSpendScript ((t.txIn.headD {}).signatureScript) = false
           then "f7" else "f8"))
    ∧ (ParseTxFromJson amountToBigInt tx = some tx1 →
      ∀ (j : Nat) (vj : Vout), tx.vout[j]? = some vj → vj.scriptPubKeyHex = "" →
      ∃ v : Vout, tx1.vout[j]? = some v ∧
        v.scriptPubKeyHex = (if isCoinbaseTx tx = true then "f7" else "f8")) := by
  constructor
  · intro i out hi hempty
    refine ⟨voutFromTxOut t parseAddresses baseline (0 + i) out, ?_, ?_⟩
    · show (txVouts t parseAddresses baseline 0 t.txOut)[i]? = _
      rw [txVouts_getElem, hi]
      rfl
    · exact voutFromTxOut_empty_script t parseAddresses baseline (0 + i) out hempty
  · intro hparse j vj hj hhex
    rw [ParseTxFromJson] at hparse
    cases hm : tx.vout.mapM (parseJsonVout amountToBigInt tx) with
    | none =>
      rw [hm] at hparse
      simp at hparse
    | some vs =>
      rw [hm] at hparse
      simp only [Option.some.injEq] at hparse
      obtain ⟨b, hb1, hb2⟩ :=
        mapM_option_getElem (parseJsonVout amountToBigInt tx) tx.vout vs hm j vj hj
      refine ⟨b, ?_, parseJsonVout_empty_script amountToBigInt tx vj b hhex hb2⟩
      rw [← hparse]
      simpa using hb1

/-- Witness for `emptyScript_sentinel_substitution`: a concrete coinbase
wire transaction with a script-less output gets the coinbase sentinel even
with address resolution disabled. -/
theorem emptyScript_sentinel_substitution_witness :
    ∃ v : Vout,
      (TxFromMsgTx (fun _ => "h") (fun _ => ([], false, false)) wC3Tx false).vout[0]? =
        some v ∧
      v.scriptPubKeyHex =
        (if IsCoinBaseTx wC3Tx = true
            ∧ isZeroCoinSpendScript ((wC3Tx.txIn.headD {}).signatureScript) = false
         then "f7" else "f8") :=
  (emptyScript_sentinel_substitution (fun _ => "h") (fun _ => ([], false, false))
    (fun _ => some 0) wC3Tx false {} {}).1 0 { value := 3, pkScript := [] } rfl rfl

set_option maxRecDepth 8000 in
/-- C3 counterexample: on the JSON path, a decoded transaction whose single
input satisfies the JSON coinbase predicate while its unlocking script — in
both the coinbase marker and the scriptSig field — is a recognized
coin-spend script still receives the coinbase sentinel f7 on its
empty-script output, where the claimed rule (coinbase sentinel iff coinbase
and the sole input is not a coin-spend script) demands the stake sentinel
f8. -/
theorem parseTxFromJson_spend_coinbase_counterexample :
    isCoinbaseTx jsonTxC3 = true
    ∧ isZeroCoinSpendScript
        (hexDecodePairs ((jsonTxC3.vin.headD {}).scriptSig.hex.data)) = true
    ∧ isZeroCoinSpendScript
        (hexDecodePairs ((jsonTxC3.vin.headD {}).coinbase.data)) = true
    ∧ (jsonTxC3.vout.headD {}).scriptPubKeyHex = ""
    ∧ (ParseTxFromJson (fun _ => some 0) jsonTxC3).map
        (fun tx1 => (tx1.vout.headD {}).scriptPubKeyHex) = some "f7"
    ∧ "f7" ≠ "f8" :=
  ⟨by decide, by decide, by decide, by decide, by decide, by decide⟩
